import Mathlib

/-!
Shallow embedding of the `MCPClient` class from `src/public/index.html`
(the SAP MCP ordering client).  The client is single-threaded and
event-driven: every method and every transport/timer callback runs as one
atomic task.  Each such task is embedded as a pure function from the
client's field record to a new record plus a list of externally visible
effects (timer arms/clears, socket operations, promise settlements,
event emissions).
-/

namespace SAPMCP

/-- Connection states of the client (`type MCPConnectionState` in the source). -/
inductive MCPConnectionState where
  | disconnected
  | connecting
  | connected
  | error
  | reconnecting
deriving DecidableEq

/-- Client configuration (`interface MCPConfig`).  `timeout` doubles as the
connection-open timeout and the per-request timeout, exactly as in the source. -/
structure MCPConfig where
  endpoint : String
  apiKey : Option String
  timeout : Nat
  retryAttempts : Nat
  retryDelay : Nat
  enableFallback : Bool
deriving DecidableEq

/-- The defaults installed by the constructor when no overrides are given
(`endpoint` default elided to a constant, `process.env` absent). -/
def defaultMCPConfig : MCPConfig :=
  { endpoint := "ws://localhost:8080/mcp"
    apiKey := none
    timeout := 30000
    retryAttempts := 3
    retryDelay := 1000
    enableFallback := true }

/-- Error payload carried by an inbound message (`interface MCPError`). -/
structure MCPErrorPayload where
  code : Int
  message : String
deriving DecidableEq

/-- The `Error` values the client constructs, one constructor per distinct
`new Error(...)` site in the source, each with its exact message text. -/
inductive ClientError where
  | connectionTimeout
  | notConnected
  | requestTimeout (method : String)
  | serverError (message : String)
  | connectionClosed
  | wsConnectionFailed
  | thrown (e : String)
deriving DecidableEq

/-- The `message` property of each constructed `Error`. -/
def ClientError.message : ClientError → String
  | .connectionTimeout => "MCP connection timeout"
  | .notConnected => "MCP client not connected"
  | .requestTimeout m => "MCP request timeout: " ++ m
  | .serverError m => "MCP Error: " ++ m
  | .connectionClosed => "Connection closed"
  | .wsConnectionFailed => "WebSocket connection failed"
  | .thrown e => e

/-- Message kinds (`type` field of `interface MCPMessage`). -/
inductive MCPMsgType where
  | request
  | response
  | notification
deriving DecidableEq

/-- An inbound frame parsed as an `MCPMessage`.  Results are abstracted to
an optional string payload; `id` uses `""` for a missing/falsy identifier. -/
structure InboundMessage where
  id : String
  type : MCPMsgType
  method : Option String
  result : Option String
  error : Option MCPErrorPayload
deriving DecidableEq

/-- Settlement of the promise returned by `sendMessage` for one request. -/
inductive SettleResult where
  | ok (result : Option String)
  | err (e : ClientError)
deriving DecidableEq

/-- Settlement of the promise returned by `connect()`. -/
inductive ConnectResult where
  | ok (b : Bool)
  | err (e : ClientError)
deriving DecidableEq

/-- One entry of `pendingRequests`.  The source map stores the resolve/reject
callbacks and the `NodeJS.Timeout` handle; the callbacks are identified here by
the message id (see `Eff.settlePending`), the captured `message.method` of the
timeout closure is kept alongside the timer handle. -/
structure PendingRequest where
  method : String
  timer : Nat
deriving DecidableEq

/-- Externally visible effects of one task of the client. -/
inductive Eff where
  | stateChange (s : MCPConnectionState)
  | errorEvent (msg : String)
  | socketClose (sock : Nat) (code : Option Nat) (reason : Option String)
  | armConnectTimeout (delay : Nat)
  | armRequestTimeout (timer : Nat) (id : String) (method : String) (delay : Nat)
  | clearTimer (t : Nat)
  | clearHeartbeat (t : Nat)
  | scheduleConnect (delay : Nat)
  | sendFrame (id : String) (method : String)
  | settleConnect (r : ConnectResult)
  | settlePending (id : String) (r : SettleResult)
  | emitNotify (kind : String) (m : InboundMessage)
deriving DecidableEq

/-- The mutable fields of `class MCPClient`.  `websocket` and timer handles are
abstracted to numeric identifiers handed in by the environment. -/
structure MCPClient where
  config : MCPConfig
  connectionState : MCPConnectionState
  messageId : Nat
  pendingRequests : List (String × PendingRequest)
  reconnectAttempts : Nat
  maxReconnectAttempts : Nat
  heartbeatInterval : Option Nat
  websocket : Option Nat
deriving DecidableEq

/-- Constructor: field initializers plus the config merge. -/
def mkMCPClient (config : MCPConfig) : MCPClient :=
  { config := config
    connectionState := .disconnected
    messageId := 0
    pendingRequests := []
    reconnectAttempts := 0
    maxReconnectAttempts := 5
    heartbeatInterval := none
    websocket := none }

/-- Lookup in the pending-request map (`pendingRequests.get`). -/
def pfind : List (String × PendingRequest) → String → Option PendingRequest
  | [], _ => none
  | (k, v) :: rest, id => if k = id then some v else pfind rest id

/-- Insertion into the pending-request map (`pendingRequests.set`): replaces in
place when the key is present, appends otherwise. -/
def pset : List (String × PendingRequest) → String → PendingRequest →
    List (String × PendingRequest)
  | [], id, v => [(id, v)]
  | (k, w) :: rest, id, v =>
    if k = id then (id, v) :: rest else (k, w) :: pset rest id v

/-- Deletion from the pending-request map (`pendingRequests.delete`). -/
def perase (m : List (String × PendingRequest)) (id : String) :
    List (String × PendingRequest) :=
  m.filter (fun q => q.1 ≠ id)

/-- `setConnectionState`: transitions to the same value are suppressed,
otherwise the field is written and `connectionStateChange` is emitted. -/
def setConnectionState (c : MCPClient) (s : MCPConnectionState) :
    MCPClient × List Eff :=
  if c.connectionState = s then (c, [])
  else ({ c with connectionState := s }, [Eff.stateChange s])

/-- `startHeartbeat`: stores the fresh `setInterval` handle. -/
def startHeartbeat (c : MCPClient) (hbTimer : Nat) : MCPClient :=
  { c with heartbeatInterval := some hbTimer }

/-- `stopHeartbeat`: clears the interval when present. -/
def stopHeartbeat (c : MCPClient) : MCPClient × List Eff :=
  match c.heartbeatInterval with
  | some t => ({ c with heartbeatInterval := none }, [Eff.clearHeartbeat t])
  | none => (c, [])

/-- `isConnected()`: state must be `connected` and the stored socket must
report `readyState === OPEN`; `wsOpen` is the environment's report of the
latter for the stored socket (falsy when no socket is stored). -/
def isConnected (c : MCPClient) (wsOpen : Bool) : Bool :=
  decide (c.connectionState = .connected) &&
    (match c.websocket with
     | some _ => wsOpen
     | none => false)

/-- `generateMessageId` template literal body. -/
def renderId (now ctr : Nat) : String :=
  "mcp_" ++ toString now ++ "_" ++ toString ctr

/-- `generateMessageId()`: increments the counter and renders
`mcp_${Date.now()}_${++this.messageId}`; `now` is the clock reading. -/
def generateMessageId (c : MCPClient) (now : Nat) : MCPClient × String :=
  let c1 := { c with messageId := c.messageId + 1 }
  (c1, renderId now c1.messageId)

/-- `handleReconnection()`: stops with state `error` once the attempt counter
has reached the hardcoded `maxReconnectAttempts`; otherwise transitions to
`reconnecting`, increments the counter, and schedules a `connect()` after
`retryDelay * 2 ^ (reconnectAttempts - 1)` milliseconds. -/
def handleReconnection (c : MCPClient) : MCPClient × List Eff :=
  if c.maxReconnectAttempts ≤ c.reconnectAttempts then
    setConnectionState c .error
  else
    let p := setConnectionState c .reconnecting
    let c2 := { p.1 with reconnectAttempts := p.1.reconnectAttempts + 1 }
    let delay := c2.config.retryDelay * 2 ^ (c2.reconnectAttempts - 1)
    (c2, p.2 ++ [Eff.scheduleConnect delay])

/-- Synchronous prologue of `connect()`: sets state `connecting`, constructs a
new `WebSocket` (handle `newSock`) overwriting the stored one, and arms the
connection timeout.  The handlers installed on the socket are modelled by the
separate `wsOnOpen`/`wsOnClose`/`wsOnError`/`connectionTimeoutFire` tasks. -/
def connectStart (c : MCPClient) (newSock : Nat) : MCPClient × List Eff :=
  let p := setConnectionState c .connecting
  let c2 := { p.1 with websocket := some newSock }
  (c2, p.2 ++ [Eff.armConnectTimeout c2.config.timeout])

/-- The connection-timeout callback of `connect()`: closes the stored socket
(if any) and rejects the `connect()` promise with `'MCP connection timeout'`.
It does not touch `connectionState`; the outer `catch` of `connect()` cannot
intercept this rejection because the promise is returned without `await`. -/
def connectionTimeoutFire (c : MCPClient) : MCPClient × List Eff :=
  let closeEffs : List Eff :=
    match c.websocket with
    | some w => [Eff.socketClose w none none]
    | none => []
  (c, closeEffs ++ [Eff.settleConnect (ConnectResult.err ClientError.connectionTimeout)])

/-- The `onopen` handler: clears the connection timeout, transitions to
`connected`, zeroes the attempt counter, starts the heartbeat (fresh interval
handle `hbTimer`), and resolves the `connect()` promise with `true`. -/
def wsOnOpen (c : MCPClient) (connTimer hbTimer : Nat) : MCPClient × List Eff :=
  let p := setConnectionState c .connected
  let c2 := { p.1 with reconnectAttempts := 0 }
  let c3 := startHeartbeat c2 hbTimer
  (c3, Eff.clearTimer connTimer :: (p.2 ++ [Eff.settleConnect (ConnectResult.ok true)]))

/-- The `onclose` handler: clears the connection timeout, transitions to
`disconnected`, stops the heartbeat, and for any close code other than `1000`
invokes `handleReconnection()`. -/
def wsOnClose (c : MCPClient) (connTimer : Nat) (code : Nat) : MCPClient × List Eff :=
  let p := setConnectionState c .disconnected
  let q := stopHeartbeat p.1
  if code ≠ 1000 then
    let r := handleReconnection q.1
    (r.1, Eff.clearTimer connTimer :: (p.2 ++ q.2 ++ r.2))
  else
    (q.1, Eff.clearTimer connTimer :: (p.2 ++ q.2))

/-- The `onerror` handler: clears the connection timeout, transitions to
`error`, emits an error event, and rejects the `connect()` promise. -/
def wsOnError (c : MCPClient) (connTimer : Nat) : MCPClient × List Eff :=
  let p := setConnectionState c .error
  (p.1, Eff.clearTimer connTimer ::
    (p.2 ++ [Eff.errorEvent "WebSocket connection failed",
             Eff.settleConnect (ConnectResult.err (ClientError.thrown "websocket error"))]))

/-- `sendMessage(message)` for a request with identifier `id` and method
`method`.  `timerId` is the fresh handle returned by `setTimeout`; `wsOpen` is
the environment's readyState report used by `isConnected`; `sendThrows` is
`some e` when `websocket.send` throws `e`. -/
def sendMessage (c : MCPClient) (wsOpen : Bool) (id method : String)
    (timerId : Nat) (sendThrows : Option String) : MCPClient × List Eff :=
  if !(isConnected c wsOpen) || c.websocket.isNone then
    (c, [Eff.settlePending id (SettleResult.err ClientError.notConnected)])
  else
    let c1 := { c with pendingRequests := pset c.pendingRequests id ⟨method, timerId⟩ }
    let armEff := Eff.armRequestTimeout timerId id method c.config.timeout
    match sendThrows with
    | none => (c1, [armEff, Eff.sendFrame id method])
    | some e =>
      let c2 := { c1 with pendingRequests := perase c1.pendingRequests id }
      (c2, [armEff, Eff.clearTimer timerId,
            Eff.settlePending id (SettleResult.err (ClientError.thrown e))])

/-- The request-timeout callback armed by `sendMessage`: deletes the pending
entry and rejects with the `RequestTimeout` error naming the captured method. -/
def requestTimeoutFire (c : MCPClient) (id method : String) : MCPClient × List Eff :=
  ({ c with pendingRequests := perase c.pendingRequests id },
   [Eff.settlePending id (SettleResult.err (ClientError.requestTimeout method))])

/-- Effects of the `pendingRequests.forEach` loop of `disconnect()`: for each
entry, in map order, clear its timer and reject its promise with
`'Connection closed'`. -/
def rejectEffsOf (l : List (String × PendingRequest)) : List Eff :=
  l.foldr
    (fun e acc => Eff.clearTimer e.2.timer ::
      Eff.settlePending e.1 (SettleResult.err ClientError.connectionClosed) :: acc) []

/-- `disconnect()`: stops the heartbeat, closes the stored socket with the
normal-closure code `1000`, rejects every pending operation with
`'Connection closed'` clearing its timer, empties the map, and transitions to
`disconnected`. -/
def disconnect (c : MCPClient) : MCPClient × List Eff :=
  let p := stopHeartbeat c
  let q : MCPClient × List Eff :=
    match p.1.websocket with
    | some w => ({ p.1 with websocket := none },
                 [Eff.socketClose w (some 1000) (some "Client disconnect")])
    | none => (p.1, [])
  let rejectEffs : List Eff := rejectEffsOf q.1.pendingRequests
  let c3 := { q.1 with pendingRequests := [] }
  let r := setConnectionState c3 .disconnected
  (r.1, p.2 ++ q.2 ++ rejectEffs ++ r.2)

/-- `handleNotification`: the `switch` on `message.method`; `server.shutdown`
triggers a local `disconnect()`, the other cases only emit events. -/
def handleNotification (c : MCPClient) (m : InboundMessage) : MCPClient × List Eff :=
  if m.method = some "server.shutdown" then disconnect c
  else if m.method = some "system.health" then (c, [Eff.emitNotify "healthUpdate" m])
  else if m.method = some "ai.model.changed" then (c, [Eff.emitNotify "modelChanged" m])
  else (c, [Eff.emitNotify "notification" m])

/-- `handleIncomingMessage`: a response with a truthy id resolves or rejects
the matching pending entry after clearing its timer and removing it from the
map; an unmatched response is discarded; notifications are dispatched. -/
def handleIncomingMessage (c : MCPClient) (m : InboundMessage) : MCPClient × List Eff :=
  if m.type = MCPMsgType.response ∧ m.id ≠ "" then
    match pfind c.pendingRequests m.id with
    | some p =>
      let c1 := { c with pendingRequests := perase c.pendingRequests m.id }
      match m.error with
      | some err =>
        (c1, [Eff.clearTimer p.timer,
              Eff.settlePending m.id (SettleResult.err (ClientError.serverError err.message))])
      | none =>
        (c1, [Eff.clearTimer p.timer, Eff.settlePending m.id (SettleResult.ok m.result)])
    | none => (c, [])
  else if m.type = MCPMsgType.notification then
    handleNotification c m
  else
    (c, [])

/-- A request-timeout timer armed by `sendMessage` and not yet fired or
cleared, together with the message id and method captured by its closure. -/
structure ArmedTimer where
  timer : Nat
  id : String
  method : String
deriving DecidableEq

/-- The client together with the runtime state relevant to request
correlation: the armed request-timeout timers, the settlements performed on
`sendMessage` promises so far, and (as history) the `(now, counter)` pairs
consumed by `generateMessageId`. -/
structure World where
  client : MCPClient
  armed : List ArmedTimer
  settled : List (String × SettleResult)
  allocated : List (Nat × Nat)
deriving DecidableEq

/-- Interpretation of one effect on the runtime state. -/
def applyEff (w : World) : Eff → World
  | Eff.armRequestTimeout t id method _ => { w with armed := w.armed ++ [⟨t, id, method⟩] }
  | Eff.clearTimer t => { w with armed := w.armed.filter (fun a => a.timer ≠ t) }
  | Eff.settlePending id r => { w with settled := w.settled ++ [(id, r)] }
  | _ => w

/-- Interpretation of a list of effects, left to right. -/
def applyEffs (w : World) (effs : List Eff) : World :=
  effs.foldl applyEff w

/-- Replace the client by the task's result and interpret its effects. -/
def runClientOp (w : World) (out : MCPClient × List Eff) : World :=
  applyEffs { w with client := out.1 } out.2

/-- The correlator-relevant events: a `send` (id allocation followed by
`sendMessage`), an inbound frame, the firing of an armed request timeout, and
a `disconnect()` call.  A `send` whose `setTimeout` handle collides with an
armed one is rejected by the runtime and skipped, since handles are unique. -/
inductive TraceEvent where
  | send (now : Nat) (method : String) (timerId : Nat) (wsOpen : Bool)
      (sendThrows : Option String)
  | inbound (m : InboundMessage)
  | timerFire (t : Nat)
  | disconnectCall
deriving DecidableEq

/-- One step of the event-driven runtime. -/
def stepEvent (w : World) : TraceEvent → World
  | TraceEvent.send now method timerId wsOpen sendThrows =>
    if (w.armed.map ArmedTimer.timer).contains timerId then w
    else
      let p := generateMessageId w.client now
      let w1 := { w with client := p.1, allocated := w.allocated ++ [(now, p.1.messageId)] }
      runClientOp w1 (sendMessage p.1 wsOpen p.2 method timerId sendThrows)
  | TraceEvent.inbound m => runClientOp w (handleIncomingMessage w.client m)
  | TraceEvent.timerFire t =>
    match w.armed.find? (fun a => a.timer == t) with
    | some a =>
      let w1 := { w with armed := w.armed.filter (fun x => x.timer ≠ t) }
      runClientOp w1 (requestTimeoutFire w1.client a.id a.method)
    | none => w
  | TraceEvent.disconnectCall => runClientOp w (disconnect w.client)

/-- Run a list of events from a world. -/
def runTrace (w : World) (es : List TraceEvent) : World :=
  es.foldl stepEvent w

/-- A freshly constructed client with no armed timers, settlements, or
allocations. -/
def initialWorld (config : MCPConfig) : World :=
  { client := mkMCPClient config, armed := [], settled := [], allocated := [] }

/-- Decimal digit characters of a natural number, most significant first; a
structurally convenient reformulation of core's fuelled `Nat.toDigits 10`. -/
def repChars (n : Nat) : List Char :=
  if n < 10 then [Nat.digitChar n]
  else repChars (n / 10) ++ [Nat.digitChar (n % 10)]
termination_by n
decreasing_by omega

/-- Correlator invariant of the running client.  Identifiers of pending and
settled operations come from distinct allocations, no identifier is pending
and settled at the same time, each settlement happened at most once, and the
armed request-timeout timers are in bijection with the pending entries. -/
structure WInv (w : World) : Prop where
  allocBound : ∀ p ∈ w.allocated, p.2 ≤ w.client.messageId
  allocNodup : (w.allocated.map Prod.snd).Nodup
  pendAlloc : ∀ q ∈ w.client.pendingRequests, ∃ p ∈ w.allocated, q.1 = renderId p.1 p.2
  settAlloc : ∀ s ∈ w.settled, ∃ p ∈ w.allocated, s.1 = renderId p.1 p.2
  pendNodup : (w.client.pendingRequests.map Prod.fst).Nodup
  settNodup : (w.settled.map Prod.fst).Nodup
  pendSett : ∀ q ∈ w.client.pendingRequests, ∀ s ∈ w.settled, q.1 ≠ s.1
  armedNodup : (w.armed.map ArmedTimer.timer).Nodup
  armedPend : ∀ a ∈ w.armed,
    pfind w.client.pendingRequests a.id = some ⟨a.method, a.timer⟩
  pendArmed : ∀ q ∈ w.client.pendingRequests,
    (⟨q.2.timer, q.1, q.2.method⟩ : ArmedTimer) ∈ w.armed

/-- Fixture: fresh client with the attempt counter at the hardcoded cap 5. -/
def clientAtCap : MCPClient :=
  { mkMCPClient defaultMCPConfig with reconnectAttempts := 5 }

/-- Fixture: client whose counter equals the configured (but unused)
`retryAttempts = 3`. -/
def clientAttempts3 : MCPClient :=
  { mkMCPClient { defaultMCPConfig with retryAttempts := 3 } with
      reconnectAttempts := 3 }

/-- Fixture: fresh client with two reconnection attempts already made. -/
def clientTwoAttempts : MCPClient :=
  { mkMCPClient defaultMCPConfig with reconnectAttempts := 2 }

/-- Fixture: connected client with auto-reconnect disabled in the config. -/
def clientNoFallback : MCPClient :=
  { mkMCPClient { defaultMCPConfig with enableFallback := false } with
      connectionState := MCPConnectionState.connected }

/-- Fixture: connected client with a stored socket. -/
def clientConnected : MCPClient :=
  { mkMCPClient defaultMCPConfig with
      connectionState := MCPConnectionState.connected, websocket := some 0 }

/-- Fixture: connected client with one pending request, its armed timer
recorded, and a running heartbeat. -/
def clientPending : MCPClient :=
  { mkMCPClient defaultMCPConfig with
      connectionState := MCPConnectionState.connected, websocket := some 0,
      pendingRequests := [("mcp_1_1", ⟨"system.ping", 3⟩)],
      heartbeatInterval := some 9 }

/-- A client wrapped in a runtime with no armed timers, settlements, or
allocations yet. -/
def startWorld (c0 : MCPClient) : World :=
  { client := c0, armed := [], settled := [], allocated := [] }

/-- Fixture: world wrapping `clientConnected` with an empty runtime. -/
def worldConnected : World :=
  { client := clientConnected, armed := [], settled := [], allocated := [] }

/-- Fixture trace: two sends followed by the first request's timeout firing,
leaving one settled and one pending operation. -/
def traceFixture : List TraceEvent :=
  [TraceEvent.send 5 "system.ping" 1 true none,
   TraceEvent.send 5 "chat.completion" 2 true none,
   TraceEvent.timerFire 1]

/-- The pending entry left over by `traceFixture`. -/
def pendingFixture : String × PendingRequest :=
  ("mcp_5_2", ⟨"chat.completion", 2⟩)

lemma digitChar_lt10_ne_underscore : ∀ d, d < 10 → Nat.digitChar d ≠ '_' := by decide

lemma digitChar_lt10_inj :
    ∀ d₁, d₁ < 10 → ∀ d₂, d₂ < 10 → Nat.digitChar d₁ = Nat.digitChar d₂ → d₁ = d₂ := by
  decide

lemma repChars_of_lt {n : Nat} (h : n < 10) : repChars n = [Nat.digitChar n] := by
  rw [repChars, if_pos h]

lemma repChars_of_ge {n : Nat} (h : ¬ n < 10) :
    repChars n = repChars (n / 10) ++ [Nat.digitChar (n % 10)] := by
  conv_lhs => rw [repChars]
  rw [if_neg h]

lemma repChars_length_pos (n : Nat) : 0 < (repChars n).length := by
  by_cases h : n < 10
  · rw [repChars_of_lt h]; simp
  · rw [repChars_of_ge h]; simp

lemma toDigitsCore_eq_repChars (fuel : Nat) :
    ∀ (n : Nat) (ds : List Char), n < fuel →
      Nat.toDigitsCore 10 fuel n ds = repChars n ++ ds := by
  induction fuel with
  | zero => intro n ds h; omega
  | succ f ih =>
    intro n ds h
    rw [Nat.toDigitsCore]
    by_cases h0 : n / 10 = 0
    · have hn : n < 10 := by omega
      rw [if_pos h0, repChars_of_lt hn, Nat.mod_eq_of_lt hn]
      simp
    · have hn : ¬ n < 10 := by omega
      rw [if_neg h0, ih (n / 10) _ (by omega), repChars_of_ge hn]
      simp

lemma toDigits_eq_repChars (n : Nat) : Nat.toDigits 10 n = repChars n := by
  rw [Nat.toDigits, toDigitsCore_eq_repChars (n + 1) n [] (Nat.lt_succ_self n)]
  simp

lemma underscore_notMem_repChars (n : Nat) : '_' ∉ repChars n := by
  induction n using Nat.strong_induction_on with
  | _ n ih =>
    by_cases h : n < 10
    · rw [repChars_of_lt h]
      intro hm
      exact digitChar_lt10_ne_underscore n h (List.mem_singleton.mp hm).symm
    · rw [repChars_of_ge h]
      intro hm
      rcases List.mem_append.mp hm with h1 | h2
      · exact ih (n / 10) (by omega) h1
      · exact digitChar_lt10_ne_underscore (n % 10) (by omega)
          (List.mem_singleton.mp h2).symm

lemma repChars_inj (m : Nat) : ∀ n : Nat, repChars m = repChars n → m = n := by
  induction m using Nat.strong_induction_on with
  | _ m ih =>
    intro n h
    by_cases hm : m < 10 <;> by_cases hn : n < 10
    · rw [repChars_of_lt hm, repChars_of_lt hn] at h
      exact digitChar_lt10_inj m hm n hn (List.singleton_inj.mp h)
    · exfalso
      rw [repChars_of_lt hm, repChars_of_ge hn] at h
      have hlen := congrArg List.length h
      have hpos := repChars_length_pos (n / 10)
      simp only [List.length_append, List.length_cons, List.length_nil] at hlen
      omega
    · exfalso
      rw [repChars_of_ge hm, repChars_of_lt hn] at h
      have hlen := congrArg List.length h
      have hpos := repChars_length_pos (m / 10)
      simp only [List.length_append, List.length_cons, List.length_nil] at hlen
      omega
    · rw [repChars_of_ge hm, repChars_of_ge hn] at h
      obtain ⟨h1, h2⟩ := List.append_inj' h (by simp)
      have hdiv := ih (m / 10) (by omega) (n / 10) h1
      have hmod := digitChar_lt10_inj (m % 10) (by omega) (n % 10) (by omega)
        (List.singleton_inj.mp h2)
      omega

lemma append_underscore_inj (a₁ : List Char) :
    ∀ (a₂ b₁ b₂ : List Char), '_' ∉ a₁ → '_' ∉ a₂ →
      a₁ ++ '_' :: b₁ = a₂ ++ '_' :: b₂ → a₁ = a₂ ∧ b₁ = b₂ := by
  induction a₁ with
  | nil =>
    intro a₂ b₁ b₂ h1 h2 h
    cases a₂ with
    | nil =>
      refine ⟨rfl, ?_⟩
      simpa using h
    | cons c t =>
      exfalso
      rw [List.nil_append, List.cons_append] at h
      injection h with hc _
      exact h2 (hc ▸ List.mem_cons_self c t)
  | cons c t ih =>
    intro a₂ b₁ b₂ h1 h2 h
    cases a₂ with
    | nil =>
      exfalso
      rw [List.nil_append, List.cons_append] at h
      injection h with hc _
      exact h1 (hc ▸ List.mem_cons_self c t)
    | cons d u =>
      rw [List.cons_append, List.cons_append] at h
      injection h with hcd hrest
      have hr := ih u b₁ b₂ (fun hx => h1 (List.mem_cons_of_mem c hx))
        (fun hx => h2 (List.mem_cons_of_mem d hx)) hrest
      exact ⟨by rw [hcd, hr.1], hr.2⟩

lemma data_renderId (n c : Nat) :
    (renderId n c).data = 'm' :: 'c' :: 'p' :: '_' :: (repChars n ++ '_' :: repChars c) := by
  have h1 : ∀ k : Nat, (toString k).data = repChars k := by
    intro k
    show Nat.toDigits 10 k = repChars k
    exact toDigits_eq_repChars k
  have h2 : ("mcp_" : String).data = ['m', 'c', 'p', '_'] := rfl
  have h3 : ("_" : String).data = ['_'] := rfl
  simp only [renderId, String.data_append, h1, h2, h3]
  simp

lemma renderId_inj {n₁ c₁ n₂ c₂ : Nat} (h : renderId n₁ c₁ = renderId n₂ c₂) :
    n₁ = n₂ ∧ c₁ = c₂ := by
  have hd := congrArg String.data h
  rw [data_renderId, data_renderId] at hd
  injection hd with _ hd
  injection hd with _ hd
  injection hd with _ hd
  injection hd with _ hd
  obtain ⟨h1, h2⟩ := append_underscore_inj _ _ _ _
    (underscore_notMem_repChars n₁) (underscore_notMem_repChars n₂) hd
  exact ⟨repChars_inj _ _ h1, repChars_inj _ _ h2⟩

lemma renderId_ne_of_ctr_ne {n₁ c₁ n₂ c₂ : Nat} (h : c₁ ≠ c₂) :
    renderId n₁ c₁ ≠ renderId n₂ c₂ :=
  fun he => h (renderId_inj he).2

lemma pfind_eq_some_mem :
    ∀ {m : List (String × PendingRequest)} {id : String} {p : PendingRequest},
      pfind m id = some p → (id, p) ∈ m := by
  intro m
  induction m with
  | nil => intro id p h; simp [pfind] at h
  | cons q rest ih =>
    intro id p h
    obtain ⟨k, v⟩ := q
    rw [pfind] at h
    by_cases hk : k = id
    · rw [if_pos hk] at h
      injection h with h
      rw [← hk, ← h]
      exact List.mem_cons_self _ _
    · rw [if_neg hk] at h
      exact List.mem_cons_of_mem _ (ih h)

lemma pfind_eq_none_of_fresh :
    ∀ {m : List (String × PendingRequest)} {id : String},
      (∀ q ∈ m, q.1 ≠ id) → pfind m id = none := by
  intro m
  induction m with
  | nil => intro id _; rfl
  | cons q rest ih =>
    intro id h
    obtain ⟨k, v⟩ := q
    rw [pfind, if_neg (h (k, v) (List.mem_cons_self _ _)), ih]
    intro r hr
    exact h r (List.mem_cons_of_mem _ hr)

lemma pfind_append_left {m l : List (String × PendingRequest)} {id : String}
    {v : PendingRequest} (h : pfind m id = some v) : pfind (m ++ l) id = some v := by
  induction m with
  | nil => simp [pfind] at h
  | cons q rest ih =>
    obtain ⟨k, w⟩ := q
    rw [pfind] at h
    rw [List.cons_append, pfind]
    by_cases hk : k = id
    · rwa [if_pos hk] at h ⊢
    · rw [if_neg hk] at h ⊢
      exact ih h

lemma pfind_append_fresh {m : List (String × PendingRequest)} {id : String}
    {v : PendingRequest} (h : ∀ q ∈ m, q.1 ≠ id) :
    pfind (m ++ [(id, v)]) id = some v := by
  induction m with
  | nil => simp [pfind]
  | cons q rest ih =>
    obtain ⟨k, w⟩ := q
    rw [List.cons_append, pfind, if_neg (h (k, w) (List.mem_cons_self _ _))]
    exact ih fun r hr => h r (List.mem_cons_of_mem _ hr)

lemma pset_fresh {m : List (String × PendingRequest)} {id : String}
    {v : PendingRequest} (h : ∀ q ∈ m, q.1 ≠ id) : pset m id v = m ++ [(id, v)] := by
  induction m with
  | nil => rfl
  | cons q rest ih =>
    obtain ⟨k, w⟩ := q
    rw [pset, if_neg (h (k, w) (List.mem_cons_self _ _)), List.cons_append,
      ih fun r hr => h r (List.mem_cons_of_mem _ hr)]

lemma mem_perase {m : List (String × PendingRequest)} {id : String}
    {q : String × PendingRequest} : q ∈ perase m id ↔ q ∈ m ∧ q.1 ≠ id := by
  rw [perase, List.mem_filter, decide_eq_true_iff]

lemma perase_of_fresh {m : List (String × PendingRequest)} {id : String}
    (h : ∀ q ∈ m, q.1 ≠ id) : perase m id = m :=
  List.filter_eq_self.mpr fun q hq => decide_eq_true (h q hq)

lemma perase_append_fresh {m : List (String × PendingRequest)} {id : String}
    {v : PendingRequest} (h : ∀ q ∈ m, q.1 ≠ id) :
    perase (m ++ [(id, v)]) id = m := by
  rw [perase, List.filter_append, ← perase, perase_of_fresh h]
  simp [perase]

lemma pfind_perase_self (m : List (String × PendingRequest)) (id : String) :
    pfind (perase m id) id = none :=
  pfind_eq_none_of_fresh fun _ hq => (mem_perase.mp hq).2

lemma pfind_perase_ne {m : List (String × PendingRequest)} {id k : String}
    (h : k ≠ id) : pfind (perase m id) k = pfind m k := by
  induction m with
  | nil => rfl
  | cons q rest ih =>
    obtain ⟨k0, v0⟩ := q
    by_cases hk0 : k0 = id
    · have he : perase ((k0, v0) :: rest) id = perase rest id := by
        rw [perase, List.filter_cons, if_neg (by simp [hk0])]
        rfl
      rw [he, ih, pfind, if_neg (by rw [hk0]; exact fun he2 => h he2.symm)]
    · have he : perase ((k0, v0) :: rest) id = (k0, v0) :: perase rest id := by
        rw [perase, List.filter_cons, if_pos (by simp [hk0])]
        rfl
      rw [he, pfind, pfind]
      by_cases he : k0 = k
      · rw [if_pos he, if_pos he]
      · rw [if_neg he, if_neg he, ih]

lemma mem_armed_filter {l : List ArmedTimer} {t : Nat} {a : ArmedTimer} :
    a ∈ l.filter (fun x => x.timer ≠ t) ↔ a ∈ l ∧ a.timer ≠ t := by
  rw [List.mem_filter, decide_eq_true_iff]

lemma nodup_map_filter {α β : Type} (f : α → β) (p : α → Bool) {l : List α}
    (h : (l.map f).Nodup) : ((l.filter p).map f).Nodup :=
  List.Nodup.sublist (List.Sublist.map f (List.filter_sublist l)) h

lemma applyEffs_nil (w : World) : applyEffs w [] = w := rfl

lemma applyEffs_cons (w : World) (e : Eff) (l : List Eff) :
    applyEffs w (e :: l) = applyEffs (applyEff w e) l := rfl

lemma applyEffs_append (w : World) (l₁ l₂ : List Eff) :
    applyEffs w (l₁ ++ l₂) = applyEffs (applyEffs w l₁) l₂ :=
  List.foldl_append _ _ _ _

lemma client_applyEff (w : World) (e : Eff) : (applyEff w e).client = w.client := by
  cases e <;> rfl

lemma client_applyEffs (w : World) (l : List Eff) :
    (applyEffs w l).client = w.client := by
  induction l generalizing w with
  | nil => rfl
  | cons e l ih => rw [applyEffs_cons, ih, client_applyEff]

lemma allocated_applyEff (w : World) (e : Eff) :
    (applyEff w e).allocated = w.allocated := by
  cases e <;> rfl

lemma allocated_applyEffs (w : World) (l : List Eff) :
    (applyEffs w l).allocated = w.allocated := by
  induction l generalizing w with
  | nil => rfl
  | cons e l ih => rw [applyEffs_cons, ih, allocated_applyEff]

lemma applyEffs_rejectEffsOf (l : List (String × PendingRequest)) :
    ∀ w : World, applyEffs w (rejectEffsOf l) =
      { w with
        armed := w.armed.filter (fun a => l.all (fun e => a.timer ≠ e.2.timer)),
        settled := w.settled ++
          l.map (fun e => (e.1, SettleResult.err ClientError.connectionClosed)) } := by
  induction l with
  | nil =>
    intro w
    simp [rejectEffsOf, applyEffs]
  | cons e l ih =>
    intro w
    have hstep : rejectEffsOf (e :: l) =
        Eff.clearTimer e.2.timer ::
          Eff.settlePending e.1 (SettleResult.err ClientError.connectionClosed) ::
            rejectEffsOf l := rfl
    rw [hstep, applyEffs_cons, applyEffs_cons]
    have happ : applyEff w (Eff.clearTimer e.2.timer) =
        { w with armed := w.armed.filter (fun a => a.timer ≠ e.2.timer) } := rfl
    have happ2 : ∀ w2 : World,
        applyEff w2 (Eff.settlePending e.1 (SettleResult.err ClientError.connectionClosed)) =
          { w2 with settled := w2.settled ++
            [(e.1, SettleResult.err ClientError.connectionClosed)] } := fun _ => rfl
    rw [happ, happ2, ih]
    congr 1
    · rw [List.filter_filter]
      refine List.filter_congr fun a _ => ?_
      simp [Bool.and_comm]
    · simp

lemma disconnect_eq (c : MCPClient) :
    disconnect c =
      ({ c with heartbeatInterval := none, websocket := none,
                pendingRequests := [],
                connectionState := MCPConnectionState.disconnected },
       (match c.heartbeatInterval with
        | some t => [Eff.clearHeartbeat t]
        | none => ([] : List Eff)) ++
       (match c.websocket with
        | some s => [Eff.socketClose s (some 1000) (some "Client disconnect")]
        | none => ([] : List Eff)) ++
       rejectEffsOf c.pendingRequests ++
       (if c.connectionState = MCPConnectionState.disconnected then ([] : List Eff)
        else [Eff.stateChange MCPConnectionState.disconnected])) := by
  obtain ⟨cfg, st, mid, pend, ra, mra, hb, ws⟩ := c
  cases hb <;> cases ws <;>
    by_cases hst : st = MCPConnectionState.disconnected <;>
      simp [disconnect, stopHeartbeat, setConnectionState, hst]

lemma applyEffs_hbEffs (w : World) (o : Option Nat) :
    applyEffs w
      (match o with
       | some t => [Eff.clearHeartbeat t]
       | none => ([] : List Eff)) = w := by
  cases o <;> rfl

lemma applyEffs_wsEffs (w : World) (o : Option Nat) :
    applyEffs w
      (match o with
       | some s => [Eff.socketClose s (some 1000) (some "Client disconnect")]
       | none => ([] : List Eff)) = w := by
  cases o <;> rfl

lemma applyEffs_stEffs (w : World) (st : MCPConnectionState) :
    applyEffs w
      (if st = MCPConnectionState.disconnected then ([] : List Eff)
       else [Eff.stateChange MCPConnectionState.disconnected]) = w := by
  by_cases h : st = MCPConnectionState.disconnected
  · rw [if_pos h]; rfl
  · rw [if_neg h]; rfl

lemma WInv_disconnectRun (w : World) (hw : WInv w) :
    WInv (runClientOp w (disconnect w.client)) := by
  rw [runClientOp, disconnect_eq]
  rw [applyEffs_append, applyEffs_append, applyEffs_append,
    applyEffs_hbEffs, applyEffs_wsEffs, applyEffs_rejectEffsOf, applyEffs_stEffs]
  have hempty : w.armed.filter
      (fun a => w.client.pendingRequests.all (fun e => a.timer ≠ e.2.timer)) = [] := by
    refine List.filter_eq_nil_iff.mpr fun a ha hall => ?_
    have hmem : (a.id, (⟨a.method, a.timer⟩ : PendingRequest)) ∈
        w.client.pendingRequests := pfind_eq_some_mem (hw.armedPend a ha)
    have := List.all_eq_true.mp hall _ hmem
    simp at this
  have hmap2 : (w.client.pendingRequests.map
      (fun e => (e.1, SettleResult.err ClientError.connectionClosed))).map Prod.fst =
      w.client.pendingRequests.map Prod.fst := by
    rw [List.map_map]
    rfl
  constructor
  · intro p hp
    exact hw.allocBound p hp
  · exact hw.allocNodup
  · intro q hq
    simp at hq
  · intro s hs
    rcases List.mem_append.mp hs with hs2 | hs2
    · exact hw.settAlloc s hs2
    · obtain ⟨e, he, rfl⟩ := List.mem_map.mp hs2
      exact hw.pendAlloc e he
  · simp
  · show ((w.settled ++ w.client.pendingRequests.map
        (fun e => (e.1, SettleResult.err ClientError.connectionClosed))).map
          Prod.fst).Nodup
    rw [List.map_append, hmap2]
    refine List.nodup_append.mpr ⟨hw.settNodup, hw.pendNodup, ?_⟩
    intro x hx hx2
    obtain ⟨s, hs, rfl⟩ := List.mem_map.mp hx
    obtain ⟨e, he, heq⟩ := List.mem_map.mp hx2
    exact hw.pendSett e he s hs heq
  · intro q hq
    simp at hq
  · rw [hempty]
    simp
  · intro a ha
    rw [hempty] at ha
    simp at ha
  · intro q hq
    simp at hq

lemma WInv_resolveRemove (w : World) (hw : WInv w) (id : String) (p : PendingRequest)
    (hf : pfind w.client.pendingRequests id = some p) (r : SettleResult) :
    WInv { client := { w.client with
                       pendingRequests := perase w.client.pendingRequests id },
           armed := w.armed.filter (fun a => a.timer ≠ p.timer),
           settled := w.settled ++ [(id, r)],
           allocated := w.allocated } := by
  have hmem : (id, p) ∈ w.client.pendingRequests := pfind_eq_some_mem hf
  constructor
  · intro q hq
    exact hw.allocBound q hq
  · exact hw.allocNodup
  · intro q hq
    exact hw.pendAlloc q (mem_perase.mp hq).1
  · intro s hs
    rcases List.mem_append.mp hs with hs2 | hs2
    · exact hw.settAlloc s hs2
    · rw [List.mem_singleton] at hs2
      subst hs2
      exact hw.pendAlloc (id, p) hmem
  · exact nodup_map_filter _ _ hw.pendNodup
  · show ((w.settled ++ [(id, r)]).map Prod.fst).Nodup
    rw [List.map_append]
    refine List.nodup_append.mpr ⟨hw.settNodup, by simp, ?_⟩
    intro x hx hx2
    obtain ⟨s, hs, rfl⟩ := List.mem_map.mp hx
    simp at hx2
    exact hw.pendSett (id, p) hmem s hs hx2.symm
  · intro q hq s hs
    obtain ⟨hq1, hq2⟩ := mem_perase.mp hq
    rcases List.mem_append.mp hs with hs2 | hs2
    · exact hw.pendSett q hq1 s hs2
    · rw [List.mem_singleton] at hs2
      subst hs2
      exact hq2
  · exact nodup_map_filter _ _ hw.armedNodup
  · intro a ha
    obtain ⟨ha1, ha2⟩ := mem_armed_filter.mp ha
    have hid : a.id ≠ id := by
      intro he
      have h3 := hw.armedPend a ha1
      rw [he, hf] at h3
      injection h3 with h3
      exact ha2 (by rw [h3])
    rw [pfind_perase_ne hid]
    exact hw.armedPend a ha1
  · intro q hq
    obtain ⟨hq1, hq2⟩ := mem_perase.mp hq
    refine mem_armed_filter.mpr ⟨hw.pendArmed q hq1, ?_⟩
    intro he
    have h1 := hw.pendArmed q hq1
    have h2 := hw.pendArmed (id, p) hmem
    have h3 := List.inj_on_of_nodup_map hw.armedNodup h1 h2 (by simpa using he)
    exact hq2 (congrArg ArmedTimer.id h3)

lemma fresh_not_pending (w : World) (hw : WInv w) (now : Nat)
    {q : String × PendingRequest} (hq : q ∈ w.client.pendingRequests) :
    q.1 ≠ renderId now (w.client.messageId + 1) := by
  obtain ⟨pa, hpa, heq⟩ := hw.pendAlloc q hq
  rw [heq]
  exact renderId_ne_of_ctr_ne (by have := hw.allocBound pa hpa; omega)

lemma fresh_not_settled (w : World) (hw : WInv w) (now : Nat)
    {s : String × SettleResult} (hs : s ∈ w.settled) :
    s.1 ≠ renderId now (w.client.messageId + 1) := by
  obtain ⟨pa, hpa, heq⟩ := hw.settAlloc s hs
  rw [heq]
  exact renderId_ne_of_ctr_ne (by have := hw.allocBound pa hpa; omega)

lemma allocBound_snoc (w : World) (hw : WInv w) (now : Nat) :
    ∀ p ∈ w.allocated ++ [(now, w.client.messageId + 1)],
      p.2 ≤ w.client.messageId + 1 := by
  intro p hp
  rcases List.mem_append.mp hp with hp2 | hp2
  · have := hw.allocBound p hp2
    omega
  · rw [List.mem_singleton] at hp2
    subst hp2
    exact Nat.le_refl _

lemma allocNodup_snoc (w : World) (hw : WInv w) (now : Nat) :
    ((w.allocated ++ [(now, w.client.messageId + 1)]).map Prod.snd).Nodup := by
  rw [List.map_append]
  refine List.nodup_append.mpr ⟨hw.allocNodup, by simp, ?_⟩
  intro x hx hx2
  obtain ⟨pa, hpa, rfl⟩ := List.mem_map.mp hx
  simp at hx2
  have := hw.allocBound pa hpa
  omega

/-- Invariant preservation for the branches of `sendMessage` that allocate the
fresh identifier and settle its promise at once without touching the pending
map (the not-connected rejection and the net effect of a throwing send). -/
lemma WInv_allocSettle (w : World) (hw : WInv w) (now : Nat) (r : SettleResult) :
    WInv { client := { w.client with messageId := w.client.messageId + 1 },
           armed := w.armed,
           settled := w.settled ++ [(renderId now (w.client.messageId + 1), r)],
           allocated := w.allocated ++ [(now, w.client.messageId + 1)] } := by
  constructor
  · exact allocBound_snoc w hw now
  · exact allocNodup_snoc w hw now
  · intro q hq
    obtain ⟨pa, hpa, heq⟩ := hw.pendAlloc q hq
    exact ⟨pa, List.mem_append_left _ hpa, heq⟩
  · intro s hs
    rcases List.mem_append.mp hs with hs2 | hs2
    · obtain ⟨pa, hpa, heq⟩ := hw.settAlloc s hs2
      exact ⟨pa, List.mem_append_left _ hpa, heq⟩
    · rw [List.mem_singleton] at hs2
      subst hs2
      exact ⟨(now, w.client.messageId + 1),
        List.mem_append_right _ (List.mem_singleton_self _), rfl⟩
  · exact hw.pendNodup
  · show ((w.settled ++ [(renderId now (w.client.messageId + 1), r)]).map
        Prod.fst).Nodup
    rw [List.map_append]
    refine List.nodup_append.mpr ⟨hw.settNodup, by simp, ?_⟩
    intro x hx hx2
    obtain ⟨s, hs, rfl⟩ := List.mem_map.mp hx
    simp at hx2
    exact fresh_not_settled w hw now hs hx2
  · intro q hq s hs
    rcases List.mem_append.mp hs with hs2 | hs2
    · exact hw.pendSett q hq s hs2
    · rw [List.mem_singleton] at hs2
      subst hs2
      exact fresh_not_pending w hw now hq
  · exact hw.armedNodup
  · intro a ha
    exact hw.armedPend a ha
  · intro q hq
    exact hw.pendArmed q hq

/-- Invariant preservation for the registering branch of `sendMessage`: the
fresh identifier enters the pending map and its timeout timer is armed. -/
lemma WInv_allocRegister (w : World) (hw : WInv w) (now : Nat) (method : String)
    (timerId : Nat) (hg : ∀ a ∈ w.armed, a.timer ≠ timerId) :
    WInv { client := { w.client with
                       messageId := w.client.messageId + 1,
                       pendingRequests := w.client.pendingRequests ++
                         [(renderId now (w.client.messageId + 1),
                           ⟨method, timerId⟩)] },
           armed := w.armed ++
             [⟨timerId, renderId now (w.client.messageId + 1), method⟩],
           settled := w.settled,
           allocated := w.allocated ++ [(now, w.client.messageId + 1)] } := by
  constructor
  · exact allocBound_snoc w hw now
  · exact allocNodup_snoc w hw now
  · intro q hq
    rcases List.mem_append.mp hq with hq2 | hq2
    · obtain ⟨pa, hpa, heq⟩ := hw.pendAlloc q hq2
      exact ⟨pa, List.mem_append_left _ hpa, heq⟩
    · rw [List.mem_singleton] at hq2
      subst hq2
      exact ⟨(now, w.client.messageId + 1),
        List.mem_append_right _ (List.mem_singleton_self _), rfl⟩
  · intro s hs
    obtain ⟨pa, hpa, heq⟩ := hw.settAlloc s hs
    exact ⟨pa, List.mem_append_left _ hpa, heq⟩
  · show ((w.client.pendingRequests ++
        [(renderId now (w.client.messageId + 1),
          (⟨method, timerId⟩ : PendingRequest))]).map Prod.fst).Nodup
    rw [List.map_append]
    refine List.nodup_append.mpr ⟨hw.pendNodup, by simp, ?_⟩
    intro x hx hx2
    obtain ⟨q, hq, rfl⟩ := List.mem_map.mp hx
    simp at hx2
    exact fresh_not_pending w hw now hq hx2
  · exact hw.settNodup
  · intro q hq s hs
    rcases List.mem_append.mp hq with hq2 | hq2
    · exact hw.pendSett q hq2 s hs
    · rw [List.mem_singleton] at hq2
      subst hq2
      exact fun he => fresh_not_settled w hw now hs he.symm
  · show ((w.armed ++
        [(⟨timerId, renderId now (w.client.messageId + 1), method⟩ :
          ArmedTimer)]).map ArmedTimer.timer).Nodup
    rw [List.map_append]
    refine List.nodup_append.mpr ⟨hw.armedNodup, by simp, ?_⟩
    intro x hx hx2
    obtain ⟨a, ha, rfl⟩ := List.mem_map.mp hx
    simp at hx2
    exact hg a ha hx2
  · intro a ha
    rcases List.mem_append.mp ha with ha2 | ha2
    · exact pfind_append_left (hw.armedPend a ha2)
    · rw [List.mem_singleton] at ha2
      subst ha2
      exact pfind_append_fresh fun q hq => fresh_not_pending w hw now hq
  · intro q hq
    rcases List.mem_append.mp hq with hq2 | hq2
    · exact List.mem_append_left _ (hw.pendArmed q hq2)
    · rw [List.mem_singleton] at hq2
      subst hq2
      exact List.mem_append_right _ (List.mem_singleton_self _)

lemma sendMessage_guardTrue (c : MCPClient) (wsOpen : Bool) (id method : String)
    (timerId : Nat) (st : Option String)
    (h : (!(isConnected c wsOpen) || c.websocket.isNone) = true) :
    sendMessage c wsOpen id method timerId st =
      (c, [Eff.settlePending id (SettleResult.err ClientError.notConnected)]) := by
  rw [sendMessage, if_pos h]

lemma sendMessage_ok (c : MCPClient) (wsOpen : Bool) (id method : String)
    (timerId : Nat)
    (h : ¬ (!(isConnected c wsOpen) || c.websocket.isNone) = true) :
    sendMessage c wsOpen id method timerId none =
      ({ c with pendingRequests := pset c.pendingRequests id ⟨method, timerId⟩ },
       [Eff.armRequestTimeout timerId id method c.config.timeout,
        Eff.sendFrame id method]) := by
  rw [sendMessage, if_neg h]

lemma sendMessage_throw (c : MCPClient) (wsOpen : Bool) (id method : String)
    (timerId : Nat) (e : String)
    (h : ¬ (!(isConnected c wsOpen) || c.websocket.isNone) = true) :
    sendMessage c wsOpen id method timerId (some e) =
      ({ c with pendingRequests :=
           perase (pset c.pendingRequests id ⟨method, timerId⟩) id },
       [Eff.armRequestTimeout timerId id method c.config.timeout,
        Eff.clearTimer timerId,
        Eff.settlePending id (SettleResult.err (ClientError.thrown e))]) := by
  rw [sendMessage, if_neg h]

lemma handleIncomingMessage_found (c : MCPClient) (m : InboundMessage)
    (p : PendingRequest) (hty : m.type = MCPMsgType.response ∧ m.id ≠ "")
    (hfind : pfind c.pendingRequests m.id = some p) :
    handleIncomingMessage c m =
      ({ c with pendingRequests := perase c.pendingRequests m.id },
       [Eff.clearTimer p.timer,
        Eff.settlePending m.id
          (match m.error with
           | some err => SettleResult.err (ClientError.serverError err.message)
           | none => SettleResult.ok m.result)]) := by
  rw [handleIncomingMessage, if_pos hty, hfind]
  cases m.error <;> rfl

lemma handleIncomingMessage_notFound (c : MCPClient) (m : InboundMessage)
    (hty : m.type = MCPMsgType.response ∧ m.id ≠ "")
    (hfind : pfind c.pendingRequests m.id = none) :
    handleIncomingMessage c m = (c, []) := by
  rw [handleIncomingMessage, if_pos hty, hfind]

lemma WInv_handleNotification (w : World) (hw : WInv w) (m : InboundMessage) :
    WInv (runClientOp w (handleNotification w.client m)) := by
  rw [handleNotification]
  by_cases h1 : m.method = some "server.shutdown"
  · rw [if_pos h1]
    exact WInv_disconnectRun w hw
  · rw [if_neg h1]
    by_cases h2 : m.method = some "system.health"
    · rw [if_pos h2]
      exact hw
    · rw [if_neg h2]
      by_cases h3 : m.method = some "ai.model.changed"
      · rw [if_pos h3]
        exact hw
      · rw [if_neg h3]
        exact hw

lemma WInv_step (w : World) (hw : WInv w) (e : TraceEvent) : WInv (stepEvent w e) := by
  cases e with
  | send now method timerId wsOpen st =>
    rw [stepEvent]
    by_cases hg : ((w.armed.map ArmedTimer.timer).contains timerId) = true
    · rw [if_pos hg]
      exact hw
    · rw [if_neg hg]
      have hgm : ∀ a ∈ w.armed, a.timer ≠ timerId := by
        intro a ha he
        have hg2 : timerId ∉ w.armed.map ArmedTimer.timer := by simpa using hg
        exact hg2 (he ▸ List.mem_map_of_mem ArmedTimer.timer ha)
      have hfresh : ∀ q ∈ w.client.pendingRequests,
          q.1 ≠ renderId now (w.client.messageId + 1) :=
        fun q hq => fresh_not_pending w hw now hq
      show WInv (runClientOp
        { w with client := { w.client with messageId := w.client.messageId + 1 },
                 allocated := w.allocated ++ [(now, w.client.messageId + 1)] }
        (sendMessage { w.client with messageId := w.client.messageId + 1 } wsOpen
          (renderId now (w.client.messageId + 1)) method timerId st))
      by_cases hcon : (!(isConnected { w.client with
          messageId := w.client.messageId + 1 } wsOpen) ||
          (({ w.client with messageId := w.client.messageId + 1 } :
            MCPClient).websocket).isNone) = true
      · rw [sendMessage_guardTrue _ _ _ _ _ _ hcon]
        show WInv { client := { w.client with messageId := w.client.messageId + 1 },
                    armed := w.armed,
                    settled := w.settled ++
                      [(renderId now (w.client.messageId + 1),
                        SettleResult.err ClientError.notConnected)],
                    allocated := w.allocated ++ [(now, w.client.messageId + 1)] }
        exact WInv_allocSettle w hw now _
      · cases st with
        | none =>
          rw [sendMessage_ok _ _ _ _ _ hcon]
          show WInv (applyEffs
            { w with
              client := { w.client with
                messageId := w.client.messageId + 1,
                pendingRequests := pset w.client.pendingRequests
                  (renderId now (w.client.messageId + 1)) ⟨method, timerId⟩ },
              allocated := w.allocated ++ [(now, w.client.messageId + 1)] }
            [Eff.armRequestTimeout timerId (renderId now (w.client.messageId + 1))
               method w.client.config.timeout,
             Eff.sendFrame (renderId now (w.client.messageId + 1)) method])
          rw [pset_fresh hfresh]
          show WInv { client := { w.client with
                        messageId := w.client.messageId + 1,
                        pendingRequests := w.client.pendingRequests ++
                          [(renderId now (w.client.messageId + 1),
                            ⟨method, timerId⟩)] },
                      armed := w.armed ++
                        [⟨timerId, renderId now (w.client.messageId + 1), method⟩],
                      settled := w.settled,
                      allocated := w.allocated ++ [(now, w.client.messageId + 1)] }
          exact WInv_allocRegister w hw now method timerId hgm
        | some e =>
          rw [sendMessage_throw _ _ _ _ _ _ hcon]
          have harm : List.filter (fun a => a.timer ≠ timerId)
              (w.armed ++
                [⟨timerId, renderId now (w.client.messageId + 1), method⟩]) =
              w.armed := by
            rw [List.filter_append]
            have h1 : w.armed.filter (fun a => a.timer ≠ timerId) = w.armed :=
              List.filter_eq_self.mpr fun a ha => decide_eq_true (hgm a ha)
            rw [h1]
            simp
          show WInv (applyEffs
            { w with
              client := { w.client with
                messageId := w.client.messageId + 1,
                pendingRequests := perase (pset w.client.pendingRequests
                  (renderId now (w.client.messageId + 1)) ⟨method, timerId⟩)
                  (renderId now (w.client.messageId + 1)) },
              allocated := w.allocated ++ [(now, w.client.messageId + 1)] }
            [Eff.armRequestTimeout timerId (renderId now (w.client.messageId + 1))
               method w.client.config.timeout,
             Eff.clearTimer timerId,
             Eff.settlePending (renderId now (w.client.messageId + 1))
               (SettleResult.err (ClientError.thrown e))])
          rw [pset_fresh hfresh, perase_append_fresh hfresh]
          show WInv { client := { w.client with
                        messageId := w.client.messageId + 1,
                        pendingRequests := w.client.pendingRequests },
                      armed := List.filter (fun a => a.timer ≠ timerId)
                        (w.armed ++
                          [⟨timerId, renderId now (w.client.messageId + 1), method⟩]),
                      settled := w.settled ++
                        [(renderId now (w.client.messageId + 1),
                          SettleResult.err (ClientError.thrown e))],
                      allocated := w.allocated ++ [(now, w.client.messageId + 1)] }
          rw [harm]
          exact WInv_allocSettle w hw now _
  | inbound m =>
    rw [stepEvent]
    by_cases hty : m.type = MCPMsgType.response ∧ m.id ≠ ""
    · cases hfind : pfind w.client.pendingRequests m.id with
      | some p =>
        rw [runClientOp, handleIncomingMessage_found w.client m p hty hfind]
        show WInv { client := { w.client with
                      pendingRequests := perase w.client.pendingRequests m.id },
                    armed := w.armed.filter (fun a => a.timer ≠ p.timer),
                    settled := w.settled ++
                      [(m.id,
                        match m.error with
                        | some err =>
                          SettleResult.err (ClientError.serverError err.message)
                        | none => SettleResult.ok m.result)],
                    allocated := w.allocated }
        exact WInv_resolveRemove w hw m.id p hfind _
      | none =>
        rw [runClientOp, handleIncomingMessage_notFound w.client m hty hfind]
        exact hw
    · rw [runClientOp, handleIncomingMessage, if_neg hty]
      by_cases hnt : m.type = MCPMsgType.notification
      · rw [if_pos hnt]
        exact WInv_handleNotification w hw m
      · rw [if_neg hnt]
        exact hw
  | timerFire t =>
    rw [stepEvent]
    cases hfind : w.armed.find? (fun a => a.timer == t) with
    | none => exact hw
    | some a =>
      have ham : a ∈ w.armed := List.mem_of_find?_eq_some hfind
      have hat : a.timer = t := by simpa using List.find?_some hfind
      have hp := hw.armedPend a ham
      rw [← hat]
      show WInv { client := { w.client with
                    pendingRequests := perase w.client.pendingRequests a.id },
                  armed := w.armed.filter (fun x => x.timer ≠ a.timer),
                  settled := w.settled ++
                    [(a.id, SettleResult.err (ClientError.requestTimeout a.method))],
                  allocated := w.allocated }
      exact WInv_resolveRemove w hw a.id ⟨a.method, a.timer⟩ hp _
  | disconnectCall =>
    rw [stepEvent]
    exact WInv_disconnectRun w hw

lemma WInv_runTrace (w : World) (hw : WInv w) (es : List TraceEvent) :
    WInv (runTrace w es) := by
  induction es generalizing w with
  | nil => exact hw
  | cons e es ih => exact ih _ (WInv_step w hw e)

lemma WInv_initial (config : MCPConfig) : WInv (initialWorld config) := by
  constructor <;> simp [initialWorld, mkMCPClient]

lemma setConnectionState_fields (c : MCPClient) (s : MCPConnectionState) :
    (setConnectionState c s).1.reconnectAttempts = c.reconnectAttempts ∧
    (setConnectionState c s).1.maxReconnectAttempts = c.maxReconnectAttempts ∧
    (setConnectionState c s).1.config = c.config ∧
    (setConnectionState c s).1.heartbeatInterval = c.heartbeatInterval ∧
    (setConnectionState c s).1.websocket = c.websocket := by
  rw [setConnectionState]
  by_cases h : c.connectionState = s
  · rw [if_pos h]
    exact ⟨rfl, rfl, rfl, rfl, rfl⟩
  · rw [if_neg h]
    exact ⟨rfl, rfl, rfl, rfl, rfl⟩

lemma setConnectionState_state (c : MCPClient) (s : MCPConnectionState) :
    (setConnectionState c s).1.connectionState = s := by
  rw [setConnectionState]
  by_cases h : c.connectionState = s
  · rw [if_pos h]
    exact h
  · rw [if_neg h]

lemma stopHeartbeat_fields (c : MCPClient) :
    (stopHeartbeat c).1.reconnectAttempts = c.reconnectAttempts ∧
    (stopHeartbeat c).1.maxReconnectAttempts = c.maxReconnectAttempts ∧
    (stopHeartbeat c).1.config = c.config ∧
    (stopHeartbeat c).1.connectionState = c.connectionState := by
  rw [stopHeartbeat]
  cases c.heartbeatInterval
  · exact ⟨rfl, rfl, rfl, rfl⟩
  · exact ⟨rfl, rfl, rfl, rfl⟩

lemma no_schedule_setConnectionState (c : MCPClient) (s : MCPConnectionState)
    (d : Nat) : Eff.scheduleConnect d ∉ (setConnectionState c s).2 := by
  rw [setConnectionState]
  by_cases h : c.connectionState = s
  · rw [if_pos h]
    simp
  · rw [if_neg h]
    simp

lemma no_schedule_stopHeartbeat (c : MCPClient) (d : Nat) :
    Eff.scheduleConnect d ∉ (stopHeartbeat c).2 := by
  rw [stopHeartbeat]
  cases c.heartbeatInterval <;> simp

lemma handleReconnection_schedules (c : MCPClient)
    (h : c.reconnectAttempts < c.maxReconnectAttempts) :
    Eff.scheduleConnect (c.config.retryDelay * 2 ^ c.reconnectAttempts) ∈
      (handleReconnection c).2 ∧
    (handleReconnection c).1.reconnectAttempts = c.reconnectAttempts + 1 ∧
    (handleReconnection c).1.connectionState = MCPConnectionState.reconnecting := by
  rw [handleReconnection, if_neg (by omega)]
  rw [setConnectionState]
  by_cases hs : c.connectionState = MCPConnectionState.reconnecting
  · rw [if_pos hs]
    refine ⟨?_, rfl, hs⟩
    simp [Nat.add_sub_cancel]
  · rw [if_neg hs]
    refine ⟨?_, rfl, rfl⟩
    simp [Nat.add_sub_cancel]

lemma connectStart_state (c : MCPClient) (sock : Nat) :
    (connectStart c sock).1.connectionState = MCPConnectionState.connecting := by
  rw [connectStart, setConnectionState]
  by_cases h : c.connectionState = MCPConnectionState.connecting
  · rw [if_pos h]
    exact h
  · rw [if_neg h]

lemma connectStart_websocket (c : MCPClient) (sock : Nat) :
    (connectStart c sock).1.websocket = some sock := by
  rw [connectStart, setConnectionState]

lemma connectStart_effs (c : MCPClient) (sock : Nat) :
    (connectStart c sock).2 = [Eff.armConnectTimeout c.config.timeout] ∨
    (connectStart c sock).2 =
      [Eff.stateChange MCPConnectionState.connecting,
       Eff.armConnectTimeout c.config.timeout] := by
  rw [connectStart, setConnectionState]
  by_cases h : c.connectionState = MCPConnectionState.connecting
  · rw [if_pos h]
    left
    rfl
  · rw [if_neg h]
    right
    rfl

lemma wsOnOpen_spec (c : MCPClient) (ct hb : Nat) :
    (wsOnOpen c ct hb).1.connectionState = MCPConnectionState.connected ∧
    (wsOnOpen c ct hb).1.reconnectAttempts = 0 ∧
    (wsOnOpen c ct hb).1.websocket = c.websocket ∧
    (wsOnOpen c ct hb).1.heartbeatInterval = some hb ∧
    Eff.settleConnect (ConnectResult.ok true) ∈ (wsOnOpen c ct hb).2 := by
  rw [wsOnOpen, setConnectionState, startHeartbeat]
  by_cases h : c.connectionState = MCPConnectionState.connected
  · rw [if_pos h]
    exact ⟨h, rfl, rfl, rfl, by simp⟩
  · rw [if_neg h]
    exact ⟨rfl, rfl, rfl, rfl, by simp⟩

lemma connectionTimeoutFire_spec (c : MCPClient) :
    (connectionTimeoutFire c).1 = c ∧
    Eff.settleConnect (ConnectResult.err ClientError.connectionTimeout) ∈
      (connectionTimeoutFire c).2 := by
  refine ⟨rfl, ?_⟩
  rw [connectionTimeoutFire]
  cases c.websocket <;> simp

lemma isConnected_true_of (c : MCPClient) (h1 : c.connectionState = MCPConnectionState.connected)
    (s : Nat) (h2 : c.websocket = some s) : isConnected c true = true := by
  rw [isConnected, h1, h2]
  simp

lemma isConnected_false_of (c : MCPClient)
    (h1 : c.connectionState ≠ MCPConnectionState.connected) (b : Bool) :
    isConnected c b = false := by
  rw [isConnected]
  simp [h1]

lemma isConnected_websocket {c : MCPClient} {b : Bool} (h : isConnected c b = true) :
    c.websocket.isNone = false := by
  rw [isConnected] at h
  cases hw : c.websocket
  · rw [hw] at h
    simp at h
  · simp [hw]

lemma wsOnClose_abnormal (c : MCPClient) (ct code : Nat) (hcode : code ≠ 1000)
    (h : c.reconnectAttempts < c.maxReconnectAttempts) :
    Eff.scheduleConnect (c.config.retryDelay * 2 ^ c.reconnectAttempts) ∈
      (wsOnClose c ct code).2 := by
  rw [wsOnClose, if_pos hcode]
  have h1 := setConnectionState_fields c MCPConnectionState.disconnected
  have h2 := stopHeartbeat_fields (setConnectionState c MCPConnectionState.disconnected).1
  have hlt : (stopHeartbeat
      (setConnectionState c MCPConnectionState.disconnected).1).1.reconnectAttempts <
      (stopHeartbeat
        (setConnectionState c MCPConnectionState.disconnected).1).1.maxReconnectAttempts := by
    rw [h2.1, h2.2.1, h1.1, h1.2.1]
    exact h
  have h3 := (handleReconnection_schedules _ hlt).1
  rw [h2.1, h2.2.2.1, h1.1, h1.2.2.1] at h3
  exact List.mem_cons_of_mem _ (List.mem_append_right _ h3)

lemma wsOnClose_normal (c : MCPClient) (ct : Nat) :
    (∀ d, Eff.scheduleConnect d ∉ (wsOnClose c ct 1000).2) ∧
    (wsOnClose c ct 1000).1.reconnectAttempts = c.reconnectAttempts ∧
    (wsOnClose c ct 1000).1.connectionState = MCPConnectionState.disconnected := by
  rw [wsOnClose, if_neg (by simp)]
  refine ⟨?_, ?_, ?_⟩
  · intro d hd
    rcases List.mem_cons.mp hd with h | h
    · cases h
    · rcases List.mem_append.mp h with h | h
      · exact no_schedule_setConnectionState _ _ _ h
      · exact no_schedule_stopHeartbeat _ _ h
  · rw [(stopHeartbeat_fields _).1,
      (setConnectionState_fields c MCPConnectionState.disconnected).1]
  · rw [(stopHeartbeat_fields _).2.2.2, setConnectionState_state]

lemma mem_rejectEffsOf {l : List (String × PendingRequest)}
    {q : String × PendingRequest} (hq : q ∈ l) :
    Eff.clearTimer q.2.timer ∈ rejectEffsOf l ∧
    Eff.settlePending q.1 (SettleResult.err ClientError.connectionClosed) ∈
      rejectEffsOf l := by
  induction l with
  | nil => cases hq
  | cons e l ih =>
    have hstep : rejectEffsOf (e :: l) =
        Eff.clearTimer e.2.timer ::
          Eff.settlePending e.1 (SettleResult.err ClientError.connectionClosed) ::
            rejectEffsOf l := rfl
    rw [hstep]
    rcases List.mem_cons.mp hq with h | h
    · subst h
      exact ⟨List.mem_cons_self _ _,
        List.mem_cons_of_mem _ (List.mem_cons_self _ _)⟩
    · have := ih h
      exact ⟨List.mem_cons_of_mem _ (List.mem_cons_of_mem _ this.1),
        List.mem_cons_of_mem _ (List.mem_cons_of_mem _ this.2)⟩

lemma renders_nodup {l : List (Nat × Nat)} (h : (l.map Prod.snd).Nodup) :
    (l.map (fun p => renderId p.1 p.2)).Nodup := by
  induction l with
  | nil => simp
  | cons p l ih =>
    simp only [List.map_cons, List.nodup_cons] at h ⊢
    refine ⟨?_, ih h.2⟩
    intro hmem
    obtain ⟨q, hq, heq⟩ := List.mem_map.mp hmem
    exact h.1 ((renderId_inj heq).2 ▸ List.mem_map_of_mem Prod.snd hq)

/-- C1 counterexample: with the maximum reconnection attempts configured to 3
(base delay 1000 ms) and the attempt counter at 3, `handleReconnection` does
not transition to `error` and still schedules a further `connect()` (8000 ms,
attempt 4): the code compares the counter against the hardcoded field
`maxReconnectAttempts = 5` and never reads `config.retryAttempts`. -/
theorem C1_counterexample :
    clientAttempts3.config.retryAttempts = 3 ∧
    clientAttempts3.reconnectAttempts = 3 ∧
    (handleReconnection clientAttempts3).1.connectionState ≠
      MCPConnectionState.error ∧
    Eff.scheduleConnect 8000 ∈ (handleReconnection clientAttempts3).2 ∧
    (handleReconnection clientAttempts3).1.reconnectAttempts = 4 := by
  refine ⟨rfl, rfl, ?_, ?_, rfl⟩ <;> decide

/-- C1 (amended): reconnection attempts are bounded by the client's hardcoded
`maxReconnectAttempts` field (initialized to 5), not by the configured
`retryAttempts`: when the attempt counter reaches `maxReconnectAttempts`,
`handleReconnection` transitions the state to `error`, schedules no further
`connect()`, and leaves the counter equal to that maximum. -/
theorem C1_reconnection_bounded (c : MCPClient)
    (h : c.reconnectAttempts = c.maxReconnectAttempts) :
    (handleReconnection c).1.connectionState = MCPConnectionState.error ∧
    (∀ d, Eff.scheduleConnect d ∉ (handleReconnection c).2) ∧
    (handleReconnection c).1.reconnectAttempts = c.maxReconnectAttempts := by
  rw [handleReconnection, if_pos (by omega)]
  refine ⟨setConnectionState_state c _, ?_, ?_⟩
  · intro d
    exact no_schedule_setConnectionState c _ d
  · rw [(setConnectionState_fields c _).1, h]

/-- C1 witness: the amended bound evaluated at the capped client fixture. -/
theorem C1_witness :
    (handleReconnection clientAtCap).1.connectionState =
      MCPConnectionState.error ∧
    Eff.scheduleConnect 8000 ∉ (handleReconnection clientAtCap).2 ∧
    (handleReconnection clientAtCap).1.reconnectAttempts =
      clientAtCap.maxReconnectAttempts := by
  have h := C1_reconnection_bounded clientAtCap (by decide)
  exact ⟨h.1, h.2.1 8000, h.2.2⟩

/-- C2 counterexample: when `connect()` on a fresh client hits the open
timeout, the promise is rejected with `ConnectionTimeout` while the
connection state is still `connecting`, not `error` as the claim states (the
timeout handler closes the socket and rejects without touching the state). -/
theorem C2_counterexample :
    Eff.settleConnect (ConnectResult.err ClientError.connectionTimeout) ∈
      (connectionTimeoutFire (connectStart (mkMCPClient defaultMCPConfig) 0).1).2 ∧
    (connectionTimeoutFire
        (connectStart (mkMCPClient defaultMCPConfig) 0).1).1.connectionState ≠
      MCPConnectionState.error := by
  refine ⟨?_, ?_⟩ <;> decide

/-- C2 (amended): if the open handshake succeeds, the attempt counter is 0,
the state is `connected`, and `isConnected()` is true; if `connect()` fails
because the open timeout fires, the promise is rejected with
`ConnectionTimeout`, the state remains `connecting` (not `error`), and
`isConnected()` is false. -/
theorem C2_connect_postconditions (c : MCPClient) (sock ct hb : Nat) :
    ((wsOnOpen (connectStart c sock).1 ct hb).1.reconnectAttempts = 0 ∧
     (wsOnOpen (connectStart c sock).1 ct hb).1.connectionState =
       MCPConnectionState.connected ∧
     isConnected (wsOnOpen (connectStart c sock).1 ct hb).1 true = true ∧
     Eff.settleConnect (ConnectResult.ok true) ∈
       (wsOnOpen (connectStart c sock).1 ct hb).2) ∧
    ((connectionTimeoutFire (connectStart c sock).1).1.connectionState =
       MCPConnectionState.connecting ∧
     (∀ b, isConnected (connectionTimeoutFire (connectStart c sock).1).1 b = false) ∧
     Eff.settleConnect (ConnectResult.err ClientError.connectionTimeout) ∈
       (connectionTimeoutFire (connectStart c sock).1).2) := by
  have hcs := connectStart_state c sock
  have hws := connectStart_websocket c sock
  have hopen := wsOnOpen_spec (connectStart c sock).1 ct hb
  have htf := connectionTimeoutFire_spec (connectStart c sock).1
  refine ⟨⟨hopen.2.1, hopen.1, ?_, hopen.2.2.2.2⟩, ?_, ?_, htf.2⟩
  · refine isConnected_true_of _ hopen.1 sock ?_
    rw [hopen.2.2.1, hws]
  · rw [htf.1]
    exact hcs
  · intro b
    rw [htf.1]
    exact isConnected_false_of _ (by rw [hcs]; decide) b

/-- C3 counterexample: with auto-reconnect disabled (`enableFallback = false`)
an abnormal closure (code 1006) still triggers a reconnection attempt: the
close handler never consults the flag. -/
theorem C3_counterexample :
    clientNoFallback.config.enableFallback = false ∧
    Eff.scheduleConnect 1000 ∈ (wsOnClose clientNoFallback 7 1006).2 ∧
    (wsOnClose clientNoFallback 7 1006).1.connectionState =
      MCPConnectionState.reconnecting := by
  refine ⟨rfl, ?_, ?_⟩ <;> decide

/-- C3 (amended): a closure with the normal code 1000 never triggers a
reconnection attempt; any other close code triggers one (whenever attempts
remain) regardless of the `enableFallback` configuration flag, which the
close handler does not consult. -/
theorem C3_reconnect_trigger (c : MCPClient) (ct : Nat) :
    ((∀ d, Eff.scheduleConnect d ∉ (wsOnClose c ct 1000).2) ∧
     (wsOnClose c ct 1000).1.reconnectAttempts = c.reconnectAttempts) ∧
    (∀ code, code ≠ 1000 → c.reconnectAttempts < c.maxReconnectAttempts →
       Eff.scheduleConnect (c.config.retryDelay * 2 ^ c.reconnectAttempts) ∈
         (wsOnClose c ct code).2) := by
  refine ⟨⟨(wsOnClose_normal c ct).1, (wsOnClose_normal c ct).2.1⟩, ?_⟩
  intro code hcode h
  exact wsOnClose_abnormal c ct code hcode h

/-- C3 witness: the trigger dichotomy at the no-fallback fixture. -/
theorem C3_witness :
    Eff.scheduleConnect
        (clientNoFallback.config.retryDelay *
          2 ^ clientNoFallback.reconnectAttempts) ∈
      (wsOnClose clientNoFallback 7 1006).2 ∧
    Eff.scheduleConnect 1000 ∉ (wsOnClose clientNoFallback 7 1000).2 := by
  refine ⟨?_, ?_⟩
  · exact (C3_reconnect_trigger clientNoFallback 7).2 1006 (by decide) (by decide)
  · exact (C3_reconnect_trigger clientNoFallback 7).1.1 1000

/-- C4: for reconnection attempt n (1-indexed; the counter equals n after the
increment performed by `handleReconnection`), the scheduled delay equals the
configured base `retryDelay` times 2 ^ (n - 1). -/
theorem C4_backoff_delay (c : MCPClient) (n : Nat)
    (hn : c.reconnectAttempts + 1 = n)
    (h : c.reconnectAttempts < c.maxReconnectAttempts) :
    Eff.scheduleConnect (c.config.retryDelay * 2 ^ (n - 1)) ∈
      (handleReconnection c).2 ∧
    (handleReconnection c).1.reconnectAttempts = n := by
  subst hn
  have hs := handleReconnection_schedules c h
  exact ⟨by simpa [Nat.add_sub_cancel] using hs.1, hs.2.1⟩

/-- C4 witness: the third attempt of the fixture client is scheduled after
`1000 * 2 ^ 2` ms. -/
theorem C4_witness :
    Eff.scheduleConnect (clientTwoAttempts.config.retryDelay * 2 ^ (3 - 1)) ∈
      (handleReconnection clientTwoAttempts).2 ∧
    (handleReconnection clientTwoAttempts).1.reconnectAttempts = 3 :=
  C4_backoff_delay clientTwoAttempts 3 rfl (by decide)

/-- C5: a request registered by `sendMessage` arms a timeout capturing its
identifier and method; when that timeout fires, the pending entry is removed
from the correlator map at that moment and the promise is rejected with
`RequestTimeout` whose message names the request's method; afterwards a
late-arriving response with the same identifier is discarded without settling
anything. -/
theorem C5_request_timeout (c : MCPClient) (wsOpen : Bool) (id method : String)
    (timerId : Nat)
    (hcon : ¬ (!(isConnected c wsOpen) || c.websocket.isNone) = true) :
    Eff.armRequestTimeout timerId id method c.config.timeout ∈
      (sendMessage c wsOpen id method timerId none).2 ∧
    (∀ c2 : MCPClient,
      pfind (requestTimeoutFire c2 id method).1.pendingRequests id = none ∧
      (requestTimeoutFire c2 id method).2 =
        [Eff.settlePending id
          (SettleResult.err (ClientError.requestTimeout method))] ∧
      (ClientError.requestTimeout method).message =
        "MCP request timeout: " ++ method) ∧
    (∀ c2 : MCPClient, ∀ m : InboundMessage,
      m.type = MCPMsgType.response → m.id = id →
      handleIncomingMessage (requestTimeoutFire c2 id method).1 m =
        ((requestTimeoutFire c2 id method).1, [])) := by
  refine ⟨?_, ?_, ?_⟩
  · rw [sendMessage_ok _ _ _ _ _ hcon]
    simp
  · intro c2
    exact ⟨pfind_perase_self _ _, rfl, rfl⟩
  · intro c2 m hmt hmid
    by_cases hne : m.id = ""
    · rw [handleIncomingMessage, if_neg (by simp [hne]),
        if_neg (by rw [hmt]; decide)]
    · exact handleIncomingMessage_notFound _ m ⟨hmt, hne⟩
        (by rw [hmid]; exact pfind_perase_self _ _)

/-- C5 witness: the timeout path for a `system.ping` request registered on
the connected fixture client. -/
theorem C5_witness :
    Eff.armRequestTimeout 1 "mcp_5_1" "system.ping"
        clientConnected.config.timeout ∈
      (sendMessage clientConnected true "mcp_5_1" "system.ping" 1 none).2 ∧
    pfind (requestTimeoutFire clientConnected "mcp_5_1"
        "system.ping").1.pendingRequests "mcp_5_1" = none ∧
    (ClientError.requestTimeout "system.ping").message =
      "MCP request timeout: " ++ "system.ping" := by
  have h := C5_request_timeout clientConnected true "mcp_5_1" "system.ping" 1
    (by decide)
  exact ⟨h.1, (h.2.1 clientConnected).1, (h.2.1 clientConnected).2.2⟩

/-- C6: over every event trace started from a client whose pending map is
empty (with no armed timers, settlements, or identifier allocations yet):
settled identifiers are pairwise distinct (no operation is ever settled
twice), the identifiers produced by allocation are pairwise distinct, every
settled identifier corresponds to exactly one allocation, no identifier is
pending and settled at once, and the identifier a further `send` would
allocate never collides with a still-pending one. -/
theorem C6_exactly_once (c0 : MCPClient) (h0 : c0.pendingRequests = [])
    (es : List TraceEvent) :
    (((runTrace (startWorld c0) es).settled.map Prod.fst).Nodup) ∧
    (((runTrace (startWorld c0) es).allocated.map
        (fun p => renderId p.1 p.2)).Nodup) ∧
    (∀ s ∈ (runTrace (startWorld c0) es).settled,
      ∃ p ∈ (runTrace (startWorld c0) es).allocated,
        s.1 = renderId p.1 p.2) ∧
    (∀ q ∈ (runTrace (startWorld c0) es).client.pendingRequests,
      ∀ s ∈ (runTrace (startWorld c0) es).settled, q.1 ≠ s.1) ∧
    (∀ q ∈ (runTrace (startWorld c0) es).client.pendingRequests,
      ∀ now : Nat,
        q.1 ≠ (generateMessageId (runTrace (startWorld c0) es).client now).2) := by
  have hw0 : WInv (startWorld c0) := by
    constructor <;> simp [startWorld, h0]
  have hw := WInv_runTrace _ hw0 es
  refine ⟨hw.settNodup, renders_nodup hw.allocNodup, hw.settAlloc,
    hw.pendSett, ?_⟩
  intro q hq now
  exact fresh_not_pending _ hw now hq

/-- C6 witness: after two sends and one timeout on the connected fixture, the
settled identifiers are distinct and the still-pending identifier differs
from the one a further send would allocate. -/
theorem C6_witness :
    ((runTrace (startWorld clientConnected) traceFixture).settled.map
        Prod.fst).Nodup ∧
    pendingFixture.1 ≠
      (generateMessageId
        (runTrace (startWorld clientConnected) traceFixture).client 9).2 := by
  have h := C6_exactly_once clientConnected rfl traceFixture
  refine ⟨h.1, h.2.2.2.2 pendingFixture ?_ 9⟩
  decide

/-- C7: `disconnect()` stops the heartbeat, closes the stored socket with the
normal-closure code 1000, clears every pending operation's timer and rejects
its promise with `ClientClosed` (`'Connection closed'`), empties the pending
map (so no pending future stays unresolved after it returns), and transitions
to `disconnected`. -/
theorem C7_disconnect_effects (c : MCPClient) :
    (disconnect c).1.heartbeatInterval = none ∧
    (∀ s, c.websocket = some s →
      Eff.socketClose s (some 1000) (some "Client disconnect") ∈
        (disconnect c).2) ∧
    (∀ q ∈ c.pendingRequests,
      Eff.clearTimer q.2.timer ∈ (disconnect c).2 ∧
      Eff.settlePending q.1 (SettleResult.err ClientError.connectionClosed) ∈
        (disconnect c).2) ∧
    (disconnect c).1.pendingRequests = [] ∧
    (disconnect c).1.connectionState = MCPConnectionState.disconnected := by
  rw [disconnect_eq]
  refine ⟨rfl, ?_, ?_, rfl, rfl⟩
  · intro s hs
    rw [hs]
    exact List.mem_append_left _ (List.mem_append_left _
      (List.mem_append_right _ (List.mem_singleton_self _)))
  · intro q hq
    have h := mem_rejectEffsOf hq
    exact ⟨List.mem_append_left _ (List.mem_append_right _ h.1),
      List.mem_append_left _ (List.mem_append_right _ h.2)⟩

/-- C7 witness: disconnecting the fixture client with one pending operation,
a stored socket, and a running heartbeat. -/
theorem C7_witness :
    (disconnect clientPending).1.heartbeatInterval = none ∧
    Eff.socketClose 0 (some 1000) (some "Client disconnect") ∈
      (disconnect clientPending).2 ∧
    Eff.clearTimer 3 ∈ (disconnect clientPending).2 ∧
    Eff.settlePending "mcp_1_1" (SettleResult.err ClientError.connectionClosed) ∈
      (disconnect clientPending).2 ∧
    (disconnect clientPending).1.pendingRequests = [] := by
  have h := C7_disconnect_effects clientPending
  have hq := h.2.2.1 ("mcp_1_1", ⟨"system.ping", 3⟩) (by decide)
  exact ⟨h.1, h.2.1 0 rfl, hq.1, hq.2, h.2.2.2.1⟩

/-- C8: `disconnect()` is idempotent: a second call in a row returns exactly
the same client state (connection state, heartbeat field, pending map, socket
unchanged) and performs no effect at all; in particular it raises nothing. -/
theorem C8_disconnect_idempotent (c : MCPClient) :
    (disconnect (disconnect c).1).1 = (disconnect c).1 ∧
    (disconnect (disconnect c).1).2 = [] := by
  constructor
  · rw [disconnect_eq c, disconnect_eq]
  · rw [disconnect_eq c, disconnect_eq]
    rfl

/-- C9: `connect()` has no precondition on the current state: invoked from
any state, its prologue sets the state to `connecting` and stores the newly
created socket, overwriting the previously stored one without emitting any
close for it and without rejecting the call. -/
theorem C9_connect_overwrites (c : MCPClient) (sock : Nat) :
    (connectStart c sock).1.connectionState = MCPConnectionState.connecting ∧
    (connectStart c sock).1.websocket = some sock ∧
    (∀ s code r, Eff.socketClose s code r ∉ (connectStart c sock).2) ∧
    (∀ r, Eff.settleConnect r ∉ (connectStart c sock).2) := by
  refine ⟨connectStart_state c sock, connectStart_websocket c sock, ?_, ?_⟩
  · intro s code r hmem
    rcases connectStart_effs c sock with h | h <;> rw [h] at hmem <;>
      simp at hmem
  · intro r hmem
    rcases connectStart_effs c sock with h | h <;> rw [h] at hmem <;>
      simp at hmem

/-- C10: when the underlying `websocket.send` throws inside `sendMessage`,
the just-registered pending entry is removed and its timeout timer cleared
before the promise is rejected with the thrown error — the effect list is
exactly arm-timeout, clear-timer, reject in that order — leaving the
pending-request map without that entry. -/
theorem C10_send_throw_cleanup (c : MCPClient) (wsOpen : Bool)
    (id method : String) (timerId : Nat) (e : String)
    (hcon : isConnected c wsOpen = true) :
    pfind (sendMessage c wsOpen id method timerId (some e)).1.pendingRequests
        id = none ∧
    (sendMessage c wsOpen id method timerId (some e)).2 =
      [Eff.armRequestTimeout timerId id method c.config.timeout,
       Eff.clearTimer timerId,
       Eff.settlePending id (SettleResult.err (ClientError.thrown e))] := by
  have hguard : ¬ (!(isConnected c wsOpen) || c.websocket.isNone) = true := by
    rw [hcon, isConnected_websocket hcon]
    simp
  rw [sendMessage_throw _ _ _ _ _ _ hguard]
  exact ⟨pfind_perase_self _ _, rfl⟩

/-- C10 witness: a throwing send on the connected fixture client. -/
theorem C10_witness :
    pfind (sendMessage clientConnected true "mcp_1_1" "system.ping" 4
        (some "send failed")).1.pendingRequests "mcp_1_1" = none ∧
    (sendMessage clientConnected true "mcp_1_1" "system.ping" 4
        (some "send failed")).2 =
      [Eff.armRequestTimeout 4 "mcp_1_1" "system.ping"
         clientConnected.config.timeout,
       Eff.clearTimer 4,
       Eff.settlePending "mcp_1_1"
         (SettleResult.err (ClientError.thrown "send failed"))] :=
  C10_send_throw_cleanup clientConnected true "mcp_1_1" "system.ping" 4
    "send failed" (by decide)

end SAPMCP
